import Mathlib

/-!
Verification development for the Mach-O container decoder (`src/formats/MachO.cpp`).

The decoder is shallowly embedded: the byte stream is a `List Nat` of byte
values, the reader is an explicit record threaded through every operation,
and machine-integer arithmetic is `Nat` with an explicit `% 2^32` / `% 2^64`
where the C++ performs fixed-width unsigned arithmetic.
-/

/-- Little-endian assembly of a byte list into a natural number.  Each byte is
taken modulo 256, matching the fact that a real byte stream only yields values
below 256. -/
def asmLE : List Nat → Nat
  | [] => 0
  | b :: rest => b % 256 + 256 * asmLE rest

/-- Assemble a byte list into an integer with the given endianness
(`le = true` means little-endian). -/
def asm (le : Bool) (bs : List Nat) : Nat :=
  if le then asmLE bs else asmLE bs.reverse

/-- Modelled from the spec: the byte-stream reader (`Reader`, an external
collaborator of the decoder, §2 of the spec): a positionable byte source with
switchable endianness and fixed-width integer/raw reads; every fixed-width
read can fail (truncated input) and failure is observable. -/
structure Reader where
  data : List Nat
  pos : Nat
  le : Bool
deriving DecidableEq

def Reader.seek (r : Reader) (p : Nat) : Reader := { r with pos := p }

def Reader.setLE (r : Reader) (b : Bool) : Reader := { r with le := b }

/-- Fixed-width read of `n` bytes assembled per the reader's endianness;
fails (`none`) when fewer than `n` bytes remain. -/
def Reader.getW (n : Nat) (r : Reader) : Option (Nat × Reader) :=
  if r.pos + n ≤ r.data.length then
    some (asm r.le ((r.data.drop r.pos).take n), { r with pos := r.pos + n })
  else none

def Reader.getUInt32 (r : Reader) : Option (Nat × Reader) := Reader.getW 4 r

def Reader.getUInt64 (r : Reader) : Option (Nat × Reader) := Reader.getW 8 r

def Reader.getUInt16 (r : Reader) : Option (Nat × Reader) := Reader.getW 2 r

def Reader.getUChar (r : Reader) : Option (Nat × Reader) := Reader.getW 1 r

/-- Models `r.getUInt32()` called without an `ok` out-parameter (the reserved
fields at MachO.cpp:150 and 405-408): the value is discarded and a shortfall
is silently ignored. -/
def Reader.skipU32 (r : Reader) : Reader :=
  { r with pos := r.pos + min 4 (r.data.length - r.pos) }

/-- Models `r.read(n)` (raw byte read, no failure reporting): returns the
bytes actually available, advancing the position by the amount read. -/
def Reader.readBytes (n : Nat) (r : Reader) : List Nat × Reader :=
  ((r.data.drop r.pos).take n, { r with pos := r.pos + min n (r.data.length - r.pos) })

/-- Unsigned 32-bit subtraction `a - b` (wraps modulo `2^32`), as performed on
`quint32` operands such as `cmdsize - liboffset`. -/
def sub32 (a b : Nat) : Nat := (a + (2 ^ 32 - b % 2 ^ 32)) % 2 ^ 32

/-- CPU types and subtypes recognized by the decoder (MachO.cpp:154-244). -/
inductive CpuType
  | X86 | X86_64 | HPPA | ARM | SPARC | I860 | PowerPC | PowerPC_64
  | I386 | I486 | I486_SX | Pentium | PentiumPro | PentiumII_M3 | PentiumII_M5
  | Celeron | CeleronMobile | Pentium_3 | Pentium_3_M | Pentium_3_Xeon
  | Pentium_M | Pentium_4 | Pentium_4_M | Itanium | Itanium_2 | Xeon | Xeon_MP
deriving DecidableEq

/-- File types recognized by the decoder (MachO.cpp:248-271). -/
inductive FileType
  | Object | Execute | Core | Preload | Dylib | Dylinker | Bundle
deriving DecidableEq

/-- Section types registered by the decoder. -/
inductive SectionType
  | Text | SymbolStubs | CString | String | FuncStarts | CodeSig
  | Symbols | DynSymbols
deriving DecidableEq

/-- A decoded section: type, label, virtual address, size, whole-file offset
and (after the load pass) its byte content. -/
structure Section where
  stype : SectionType
  name : String
  addr : Nat
  size : Nat
  offset : Nat
  data : List Nat
deriving DecidableEq

/-- Modelled from the spec: `SymbolEntry` (Symbol Model, spec §3; the class
itself lives outside `src/`): a string-table index, a numeric value, and the
resolved name (a byte string, empty until resolution). -/
structure SymbolEntry where
  index : Nat
  value : Nat
  str : List Nat
deriving DecidableEq

def noSym : SymbolEntry := ⟨0, 0, []⟩

/-- One decoded architecture slice (`BinaryObject`, spec §3). -/
structure BinaryObject where
  systemBits : Nat
  littleEndian : Bool
  cpuType : CpuType
  cpuSubType : CpuType
  fileType : FileType
  sections : List Section
  symTable : List SymbolEntry
  dynSymTable : List SymbolEntry
deriving DecidableEq

def noSec : Section := ⟨SectionType.Text, "", 0, 0, 0, []⟩

def noObj : BinaryObject :=
  ⟨32, true, CpuType.X86, CpuType.I386, FileType.Object, [], [], []⟩

/-- Modelled from the spec: section lookup by type within a `BinaryObject`
(`getSection`, spec §3 "logical linkage by section-type lookup"): the first
registered section of the given type. -/
def findSec (secs : List Section) (t : SectionType) : Option Section :=
  secs.find? (fun s => decide (s.stype = t))

def BinaryObject.getSection (o : BinaryObject) (t : SectionType) : Option Section :=
  findSec o.sections t

/-- The bytes of an ASCII string literal, for section-name comparisons. -/
def strBytes (s : String) : List Nat := s.toList.map Char.toNat

/-- Models the `QString(QByteArray)` conversion applied to the raw 16-byte
segment/section name fields: the name is truncated at the first zero byte. -/
def qstr (bs : List Nat) : List Nat := bs.takeWhile (fun b => b ≠ 0)

/-- Construction of a section whose stored file offset is the slice base
offset plus the raw offset read from the slice's records, computed in
32-bit unsigned arithmetic — the form of every `addSection` call site in
`MachO::parseHeader` (lines 412-438, 505-508, 664-675, 764-767, 787-790). -/
def adjSection (base raw : Nat) (t : SectionType) (nm : String)
    (addr siz : Nat) : Section :=
  ⟨t, nm, addr, siz, (base + raw) % 2 ^ 32, []⟩

/-- Decoding failure: `truncated` models a checked fixed-width read running
past the end of the stream (`if (!ok) return false`); `exited` models the
`exit(0)` call on an unrecognized load-command tag (MachO.cpp:716-720). -/
inductive PErr
  | truncated
  | exited
deriving DecidableEq

/-- Mapping of raw `cputype` values (MachO.cpp:154-179). -/
def decodeCpuType (cputype : Nat) : CpuType :=
  if cputype = 7 then CpuType.X86
  else if cputype = 7 + 0x01000000 then CpuType.X86_64
  else if cputype = 11 then CpuType.HPPA
  else if cputype = 12 then CpuType.ARM
  else if cputype = 14 then CpuType.SPARC
  else if cputype = 15 then CpuType.I860
  else if cputype = 18 then CpuType.PowerPC
  else if cputype = 18 + 0x01000000 then CpuType.PowerPC_64
  else CpuType.X86

/-- Mapping of raw `cpusubtype` values (MachO.cpp:187-244). -/
def decodeCpuSubType (cpusubtype : Nat) : CpuType :=
  if cpusubtype = 3 then CpuType.I386
  else if cpusubtype = 4 then CpuType.I486
  else if cpusubtype = 4 + (8 <<< 4) then CpuType.I486_SX
  else if cpusubtype = 5 then CpuType.Pentium
  else if cpusubtype = 6 + (1 <<< 4) then CpuType.PentiumPro
  else if cpusubtype = 6 + (3 <<< 4) then CpuType.PentiumII_M3
  else if cpusubtype = 6 + (5 <<< 4) then CpuType.PentiumII_M5
  else if cpusubtype = 7 + (6 <<< 4) then CpuType.Celeron
  else if cpusubtype = 7 + (7 <<< 4) then CpuType.CeleronMobile
  else if cpusubtype = 8 then CpuType.Pentium_3
  else if cpusubtype = 8 + (1 <<< 4) then CpuType.Pentium_3_M
  else if cpusubtype = 8 + (2 <<< 4) then CpuType.Pentium_3_Xeon
  else if cpusubtype = 9 then CpuType.Pentium_M
  else if cpusubtype = 10 then CpuType.Pentium_4
  else if cpusubtype = 10 + (1 <<< 4) then CpuType.Pentium_4_M
  else if cpusubtype = 11 then CpuType.Itanium
  else if cpusubtype = 11 + (1 <<< 4) then CpuType.Itanium_2
  else if cpusubtype = 12 then CpuType.Xeon
  else if cpusubtype = 12 + (1 <<< 4) then CpuType.Xeon_MP
  else CpuType.I386

/-- Mapping of raw `filetype` values (MachO.cpp:248-271). -/
def decodeFileType (filetype : Nat) : FileType :=
  if filetype = 1 then FileType.Object
  else if filetype = 2 then FileType.Execute
  else if filetype = 4 then FileType.Core
  else if filetype = 5 then FileType.Preload
  else if filetype = 6 then FileType.Dylib
  else if filetype = 7 then FileType.Dylinker
  else if filetype = 8 then FileType.Bundle
  else FileType.Object

/-- Classification of the slice magic into (bit-width, little-endian)
(MachO.cpp:103-120); any unmatched magic keeps the defaults `(32, true)`. -/
def classifyMagic (magic : Nat) : Nat × Bool :=
  if magic = 0xFEEDFACE then (32, true)
  else if magic = 0xFEEDFACF then (64, true)
  else if magic = 0xECAFDEEF then (32, false)
  else if magic = 0xFCAFDEEF then (64, false)
  else (32, true)

/-- Width-switched read: 32-bit fields on 32-bit slices, 64-bit fields on
64-bit slices (the `if (systemBits == 32)` pattern throughout the source). -/
def readUW (bits : Nat) (r : Reader) : Option (Nat × Reader) :=
  if bits = 32 then r.getUInt32 else r.getUInt64

/-- A run of `n` consecutive checked `getUInt32` reads whose values are
discarded (consumed only to keep the stream aligned). -/
def skipU32sChecked : Nat → Reader → Option Reader
  | 0, r => some r
  | n + 1, r =>
    match r.getUInt32 with
    | none => none
    | some (_, r) => skipU32sChecked n r

/-- State threaded through the load-command loop (the locals `symoff`,
`symnum`, `indirsymoff`, `indirsymnum` of `parseHeader` plus the growing
section list and the reader). -/
structure CmdState where
  secs : List Section
  symoff : Nat
  symnum : Nat
  indirsymoff : Nat
  indirsymnum : Nat
  r : Reader
deriving DecidableEq

/-- Section whitelist of the segment command (MachO.cpp:412-438): only
`(__TEXT, __text | __symbol_stub | __stubs | __cstring | __objc_methname)`
pairs are retained. -/
def whitelistSection (base : Nat) (segname secname : List Nat)
    (addr secsize secfileoff : Nat) (secs : List Section) : List Section :=
  if qstr segname = strBytes "__TEXT" then
    if qstr secname = strBytes "__text" then
      secs ++ [adjSection base secfileoff SectionType.Text "Program" addr secsize]
    else if qstr secname = strBytes "__symbol_stub" ∨ qstr secname = strBytes "__stubs" then
      secs ++ [adjSection base secfileoff SectionType.SymbolStubs "Symbol Stubs" addr secsize]
    else if qstr secname = strBytes "__cstring" then
      secs ++ [adjSection base secfileoff SectionType.CString "C-Strings" addr secsize]
    else if qstr secname = strBytes "__objc_methname" then
      secs ++ [adjSection base secfileoff SectionType.CString "ObjC Method Names" addr secsize]
    else secs
  else secs

/-- The per-section loop of the segment command (MachO.cpp:357-440). -/
def sectLoop (base bits : Nat) : Nat → List Section → Reader →
    Except PErr (List Section × Reader)
  | 0, secs, r => .ok (secs, r)
  | n + 1, secs, r =>
    let (secname, r) := r.readBytes 16
    let (segname, r) := r.readBytes 16
    match readUW bits r with
    | none => .error .truncated
    | some (addr, r) =>
    match readUW bits r with
    | none => .error .truncated
    | some (secsize, r) =>
    match r.getUInt32 with
    | none => .error .truncated
    | some (secfileoff, r) =>
    match skipU32sChecked 4 r with  -- align, reloff, nreloc, flags: read, discarded
    | none => .error .truncated
    | some r =>
    -- two (three on 64-bit) reserved fields, read without a check
    let r := r.skipU32.skipU32
    let r := if bits = 64 then r.skipU32 else r
    sectLoop base bits n (whitelistSection base segname secname addr secsize secfileoff secs) r

/-- The `LC_SEGMENT` / `LC_SEGMENT_64` command body (MachO.cpp:292-442). -/
def segCmd (base bits : Nat) (st : CmdState) (r : Reader) : Except PErr CmdState :=
  let (_name, r) := r.readBytes 16
  match readUW bits r with
  | none => .error .truncated
  | some (_vmaddr, r) =>
  match readUW bits r with
  | none => .error .truncated
  | some (_vmsize, r) =>
  match readUW bits r with
  | none => .error .truncated
  | some (_fileoff, r) =>
  match readUW bits r with
  | none => .error .truncated
  | some (_filesize, r) =>
  match skipU32sChecked 2 r with  -- maxprot, initprot
  | none => .error .truncated
  | some r =>
  match r.getUInt32 with
  | none => .error .truncated
  | some (nsects, r) =>
  match r.getUInt32 with  -- flags
  | none => .error .truncated
  | some (_, r) =>
  match sectLoop base bits nsects st.secs r with
  | .error e => .error e
  | .ok (secs, r) => .ok { st with secs := secs, r := r }

/-- One iteration of the load-command loop: read the 32-bit tag and
`cmdsize`, then dispatch (MachO.cpp:284-721).  An unrecognized tag models
the source's `exit(0)` as the `exited` failure. -/
def cmdStep (base bits : Nat) (st : CmdState) : Except PErr CmdState :=
  match st.r.getUInt32 with
  | none => .error .truncated
  | some (type, r) =>
  match r.getUInt32 with
  | none => .error .truncated
  | some (cmdsize, r) =>
  if type = 1 ∨ type = 25 then  -- LC_SEGMENT or LC_SEGMENT_64
    segCmd base bits st r
  else if type = 0x22 ∨ type = 0x22 + 0x80000000 then  -- LC_DYLD_INFO(_ONLY)
    match skipU32sChecked 10 r with
    | none => .error .truncated
    | some r => .ok { st with r := r }
  else if type = 2 then  -- LC_SYMTAB
    match r.getUInt32 with
    | none => .error .truncated
    | some (symoff, r) =>
    match r.getUInt32 with
    | none => .error .truncated
    | some (symnum, r) =>
    match r.getUInt32 with
    | none => .error .truncated
    | some (stroff, r) =>
    match r.getUInt32 with
    | none => .error .truncated
    | some (strsize, r) =>
    .ok { st with
          secs := st.secs ++
            [adjSection base stroff SectionType.String "String Table" stroff strsize],
          symoff := symoff, symnum := symnum, r := r }
  else if type = 0xB then  -- LC_DYSYMTAB
    match skipU32sChecked 12 r with
    | none => .error .truncated
    | some r =>
    match r.getUInt32 with
    | none => .error .truncated
    | some (indirsymoff, r) =>
    match r.getUInt32 with
    | none => .error .truncated
    | some (indirsymnum, r) =>
    match skipU32sChecked 4 r with
    | none => .error .truncated
    | some r =>
    .ok { st with indirsymoff := indirsymoff, indirsymnum := indirsymnum, r := r }
  else if type = 0xC ∨ type = 0xD ∨ type = 0x18 + 0x80000000 then  -- dylib family
    match r.getUInt32 with
    | none => .error .truncated
    | some (liboffset, r) =>
    match skipU32sChecked 3 r with  -- timestamp, current version, compat version
    | none => .error .truncated
    | some r =>
    let (_path, r) := r.readBytes (sub32 cmdsize liboffset)
    .ok { st with r := r }
  else if type = 0xE ∨ type = 0x27 then  -- LC_LOAD_DYLINKER / LC_DYLD_ENVIRONMENT
    match r.getUInt32 with
    | none => .error .truncated
    | some (noffset, r) =>
    let (_path, r) := r.readBytes (sub32 cmdsize noffset)
    .ok { st with r := r }
  else if type = 0x1B then  -- LC_UUID
    let (_uuid, r) := r.readBytes 16
    .ok { st with r := r }
  else if type = 0x24 then  -- LC_VERSION_MIN_MACOSX
    match skipU32sChecked 2 r with
    | none => .error .truncated
    | some r => .ok { st with r := r }
  else if type = 0x2A then  -- LC_SOURCE_VERSION
    match r.getUInt64 with
    | none => .error .truncated
    | some (_, r) => .ok { st with r := r }
  else if type = 0x28 + 0x80000000 then  -- LC_MAIN
    match r.getUInt64 with
    | none => .error .truncated
    | some (_, r) =>
    match r.getUInt64 with
    | none => .error .truncated
    | some (_, r) => .ok { st with r := r }
  else if type = 0x26 ∨ type = 0x2B ∨ type = 0x1E ∨ type = 0x1D then
    -- LC_FUNCTION_STARTS, LC_DYLIB_CODE_SIGN_DRS, LC_SEGMENT_SPLIT_INFO,
    -- LC_CODE_SIGNATURE
    match r.getUInt32 with
    | none => .error .truncated
    | some (off, r) =>
    match r.getUInt32 with
    | none => .error .truncated
    | some (siz, r) =>
    if type = 0x26 then
      .ok { st with
            secs := st.secs ++
              [adjSection base off SectionType.FuncStarts "Function Starts" off siz],
            r := r }
    else if type = 0x1D then
      .ok { st with
            secs := st.secs ++
              [adjSection base off SectionType.CodeSig "Code Signature" off siz],
            r := r }
    else .ok { st with r := r }
  else if type = 0x29 then  -- LC_DATA_IN_CODE
    match r.getUInt32 with
    | none => .error .truncated
    | some (_, r) =>
    match r.getUInt16 with
    | none => .error .truncated
    | some (_, r) =>
    match r.getUInt16 with
    | none => .error .truncated
    | some (_, r) => .ok { st with r := r }
  else if type = 0x4 ∨ type = 0x5 then  -- LC_THREAD / LC_UNIXTHREAD
    match r.getUInt32 with
    | none => .error .truncated
    | some (flavor, r) =>
    match r.getUInt32 with
    | none => .error .truncated
    | some (count, r) =>
    let (_regs, r) := r.readBytes (flavor * count % 2 ^ 32)
    .ok { st with r := r }
  else if type = 0x1C + 0x80000000 then  -- LC_RPATH
    match r.getUInt32 with
    | none => .error .truncated
    | some (off, r) =>
    let (_name, r) := r.readBytes (sub32 cmdsize off)
    .ok { st with r := r }
  else
    -- "Temporary: Fail if unknown!" — qDebug() followed by exit(0)
    .error .exited

/-- The load-command loop, iterated exactly `ncmds` times (MachO.cpp:284). -/
def cmdLoop (base bits : Nat) : Nat → CmdState → Except PErr CmdState
  | 0, st => .ok st
  | n + 1, st =>
    match cmdStep base bits st with
    | .error e => .error e
    | .ok st' => cmdLoop base bits n st'

/-- The primary-symbol-table reading loop (MachO.cpp:730-762): `symnum`
entries of (string-table index, type flag, section index, description, value),
accumulating the byte size actually consumed in 32-bit arithmetic. -/
def symLoop (bits : Nat) : Nat → Reader → Nat → List SymbolEntry →
    Option (List SymbolEntry × Nat × Reader)
  | 0, r, symsize, acc => some (acc, symsize, r)
  | n + 1, r, symsize, acc =>
    let pos := r.pos
    match r.getUInt32 with
    | none => none
    | some (index, r) =>
    match r.getUChar with
    | none => none
    | some (_, r) =>
    match r.getUChar with
    | none => none
    | some (_, r) =>
    match r.getUInt16 with
    | none => none
    | some (_, r) =>
    match readUW bits r with
    | none => none
    | some (value, r) =>
    symLoop bits n r ((symsize + (r.pos - pos)) % 2 ^ 32) (acc ++ [⟨index, value, []⟩])

/-- The indirect-symbol-table reading loop (MachO.cpp:777-785): raw 32-bit
indices, stored as entries with value 0 and no string. -/
def dynLoop : Nat → Reader → Nat → List SymbolEntry →
    Option (List SymbolEntry × Nat × Reader)
  | 0, r, dynsymsize, acc => some (acc, dynsymsize, r)
  | n + 1, r, dynsymsize, acc =>
    let pos := r.pos
    match r.getUInt32 with
    | none => none
    | some (num, r) =>
    dynLoop n r ((dynsymsize + (r.pos - pos)) % 2 ^ 32) (acc ++ [⟨num, 0, []⟩])

/-- Symbol-table phase (MachO.cpp:725-768): when `symnum > 0`, seek to the
raw `symoff` (the base offset is NOT added for the seek), read the entries and
register a Symbol-Table section at the base-adjusted offset. -/
def symPhase (base bits symoff symnum : Nat) (secs : List Section) (r : Reader) :
    Option (List Section × List SymbolEntry × Reader) :=
  if symnum = 0 then some (secs, [], r)
  else
    match symLoop bits symnum (r.seek symoff) 0 [] with
    | none => none
    | some (syms, symsize, r) =>
      some (secs ++ [adjSection base symoff SectionType.Symbols "Symbol Table" symoff symsize],
            syms, r)

/-- Dynamic-symbol-table phase (MachO.cpp:772-791): when `indirsymnum > 0`,
seek to the raw `indirsymoff`, read the raw indices and register a
Dynamic-Symbol-Table section at the base-adjusted offset. -/
def dynPhase (base indirsymoff indirsymnum : Nat) (secs : List Section) (r : Reader) :
    Option (List Section × List SymbolEntry × Reader) :=
  if indirsymnum = 0 then some (secs, [], r)
  else
    match dynLoop indirsymnum (r.seek indirsymoff) 0 [] with
    | none => none
    | some (dyns, dynsymsize, r) =>
      some (secs ++ [adjSection base indirsymoff SectionType.DynSymbols
              "Dynamic Symbol Table" indirsymoff dynsymsize],
            dyns, r)

/-- The fixed file header after the magic (MachO.cpp:128-151): cputype,
cpusubtype, filetype, ncmds, sizeofcmds, flags, plus the unchecked reserved
field on 64-bit slices. -/
def readHdr (bits : Nat) (r : Reader) : Option (Nat × Nat × Nat × Nat × Reader) :=
  match r.getUInt32 with
  | none => none
  | some (cputype, r) =>
  match r.getUInt32 with
  | none => none
  | some (cpusubtype, r) =>
  match r.getUInt32 with
  | none => none
  | some (filetype, r) =>
  match r.getUInt32 with
  | none => none
  | some (ncmds, r) =>
  match r.getUInt32 with
  | none => none
  | some (_sizeofcmds, r) =>
  match r.getUInt32 with
  | none => none
  | some (_flags, r) =>
  some (cputype, cpusubtype, filetype, ncmds, if bits = 64 then r.skipU32 else r)

/-- Everything `parseHeader` computes before the pure load/resolution passes:
the locals of MachO.cpp:93-791 that feed the final object. -/
structure Pieces where
  magic : Nat
  bits : Nat
  le : Bool
  cpuT : CpuType
  cpuST : CpuType
  fileT : FileType
  secs : List Section
  syms : List SymbolEntry
  dyns : List SymbolEntry
  symnum : Nat
  indirsymnum : Nat
  r : Reader
deriving DecidableEq

/-- The fallible part of `MachO::parseHeader` (lines 93-791): seek to the
base offset, classify the magic, read the fixed header, run the load-command
loop, then read the primary and indirect symbol tables. -/
def phaseA (base : Nat) (r0 : Reader) : Except PErr Pieces :=
  let r := (r0.seek base).setLE true
  match r.getUInt32 with
  | none => .error .truncated
  | some (magic, r) =>
  let bl := classifyMagic magic
  let r := r.setLE bl.2
  match readHdr bl.1 r with
  | none => .error .truncated
  | some (cputype, cpusubtype, filetype, ncmds, r) =>
  match cmdLoop base bl.1 ncmds ⟨[], 0, 0, 0, 0, r⟩ with
  | .error e => .error e
  | .ok st =>
  match symPhase base bl.1 st.symoff st.symnum st.secs st.r with
  | none => .error .truncated
  | some (secs1, syms, r) =>
  match dynPhase base st.indirsymoff st.indirsymnum secs1 r with
  | none => .error .truncated
  | some (secs2, dyns, r) =>
  .ok ⟨magic, bl.1, bl.2, decodeCpuType cputype,
       decodeCpuSubType (if bl.1 = 64 then sub32 cpusubtype 0x80000000 else cpusubtype),
       decodeFileType filetype, secs2, syms, dyns, st.symnum, st.indirsymnum, r⟩

/-- The section-content load pass (MachO.cpp:794-797): seek to each stored
section's offset and read its size in bytes. -/
def loadSections (r : Reader) : List Section → List Section × Reader
  | [] => ([], r)
  | s :: rest =>
    let r1 := r.seek s.offset
    let (bs, r2) := Reader.readBytes s.size r1
    let (rest', r3) := loadSections r2 rest
    ({ s with data := bs } :: rest', r3)

/-- String-table scan (MachO.cpp:808-812): starting at byte offset `i`,
collect bytes up to and including the first zero byte (or to the end of the
buffer); an out-of-range start yields the empty name. -/
def scanStr (l : List Nat) (i : Nat) : List Nat :=
  scanStrGo (l.drop i)
where
  scanStrGo : List Nat → List Nat
    | [] => []
    | c :: rest => if c = 0 then [0] else c :: scanStrGo rest

/-- Pair each list element with its position, starting at `i` (the loop
counter `h` of MachO.cpp:805/827). -/
def enumF (i : Nat) : List α → List (Nat × α)
  | [] => []
  | a :: rest => (i, a) :: enumF (i + 1) rest

/-- String resolution (MachO.cpp:799-815): when the symbol table was seen and
a String-Table section exists, each primary symbol's name becomes the
zero-terminated scan of the section content starting at its index. -/
def resolveSyms (secs : List Section) (symnum : Nat)
    (syms : List SymbolEntry) : List SymbolEntry :=
  if symnum > 0 then
    match findSec secs SectionType.String with
    | some st => syms.map (fun s => { s with str := scanStr st.data s.index })
    | none => syms
  else syms

/-- Dynamic-symbol resolution (MachO.cpp:819-840): when both tables were seen
and a Symbol-Stubs section exists, each dynamic entry whose index is within
the primary table receives that symbol's name and the address
`stub.addr + position * 6` (64-bit arithmetic); the table is only installed
on the object when `indirsymnum > 0 && symnum > 0`. -/
def resolveDyns (secs : List Section) (symnum indirsymnum : Nat)
    (symsR dyns : List SymbolEntry) : List SymbolEntry :=
  if indirsymnum > 0 ∧ symnum > 0 then
    match findSec secs SectionType.SymbolStubs with
    | some stub =>
      (enumF 0 dyns).map (fun pr =>
        if pr.2.index < symnum then
          { pr.2 with str := (symsR.getD pr.2.index noSym).str,
                      value := (stub.addr + pr.1 * 6) % 2 ^ 64 }
        else pr.2)
    | none => dyns
  else []

/-- The pure tail of `MachO::parseHeader` (lines 793-843): load section
contents, resolve primary-symbol names from the String-Table section, resolve
dynamic symbols from the primary table and the Symbol-Stubs section, and
assemble the `BinaryObject`. -/
def finish (p : Pieces) : BinaryObject × Reader :=
  let lr := loadSections p.r p.secs
  let symsR := resolveSyms lr.1 p.symnum p.syms
  (⟨p.bits, p.le, p.cpuT, p.cpuST, p.fileT, lr.1,
    if p.symnum > 0 then symsR else [],
    resolveDyns lr.1 p.symnum p.indirsymnum symsR p.dyns⟩, lr.2)

/-- Model of `MachO::parseHeader` (lines 93-844): decode one slice at `base`; the
`_size` argument is accepted and ignored, as in the source. -/
def parseHeader (base _size : Nat) (r : Reader) : Except PErr (BinaryObject × Reader) :=
  match phaseA base r with
  | .error e => .error e
  | .ok p => .ok (finish p)

/-- Result of the per-slice fan-out loop: on success the accumulated object
list and the reader; on a truncated read the objects accumulated SO FAR (they
are kept in the `objects` member, MachO.cpp:842); `exited` when the process
was terminated by the unknown-command branch. -/
inductive SlicesRes
  | ok (objs : List BinaryObject) (r : Reader)
  | fail (objs : List BinaryObject)
  | exited
deriving DecidableEq

/-- The `foreach (arch, archs) parseHeader(...)` loop of `MachO::parse`
(lines 78-82): decode each (offset, size) pair in order, appending each
successful slice's object; a failure aborts the loop but keeps the objects
already appended. -/
def goSlices : List (Nat × Nat) → Reader → List BinaryObject → SlicesRes
  | [], r, objs => .ok objs r
  | (o, s) :: rest, r, objs =>
    match parseHeader o s r with
    | .ok (obj, r') => goSlices rest r' (objs ++ [obj])
    | .error .truncated => .fail objs
    | .error .exited => .exited

/-- The fat-header directory loop (MachO.cpp:53-75): per architecture read
cputype, cpusubtype (both discarded), file offset, size, and alignment
(discarded), retaining the (offset, size) pairs. -/
def readArchs : Nat → Reader → List (Nat × Nat) → Option (List (Nat × Nat) × Reader)
  | 0, r, acc => some (acc, r)
  | n + 1, r, acc =>
    match r.getUInt32 with
    | none => none
    | some (_cpu, r) =>
    match r.getUInt32 with
    | none => none
    | some (_sub, r) =>
    match r.getUInt32 with
    | none => none
    | some (off, r) =>
    match r.getUInt32 with
    | none => none
    | some (siz, r) =>
    match r.getUInt32 with
    | none => none
    | some (_align, r) =>
    readArchs n r (acc ++ [(off, siz)])

/-- Observable outcome of `MachO::parse`: `ok` with the objects list,
`fail` (parse returned false) with the objects retained in the `objects`
member, or `exited` when the process was terminated by `exit(0)`. -/
inductive ParseOutcome
  | ok (objs : List BinaryObject)
  | fail (objs : List BinaryObject)
  | exited
deriving DecidableEq

/-- Model of `MachO::parse` (lines 31-91), starting from the given contents of the
`objects` member (empty for a freshly constructed format object): read the
magic, fan out over the fat directory for a universal binary, otherwise
decode a single slice at offset 0. -/
def parseFrom (objs0 : List BinaryObject) (data : List Nat) : ParseOutcome :=
  let r : Reader := ⟨data, 0, true⟩
  match r.getUInt32 with
  | none => .fail objs0
  | some (magic, r) =>
    if magic = 0xCAFEBABE ∨ magic = 0xBEBAFECA then
      match (r.setLE false).getUInt32 with
      | none => .fail objs0
      | some (nfat, r2) =>
        match readArchs nfat r2 [] with
        | none => .fail objs0
        | some (archs, r3) =>
          match goSlices archs r3 objs0 with
          | .ok objs _ => .ok objs
          | .fail objs => .fail objs
          | .exited => .exited
    else
      match parseHeader 0 0 r with
      | .ok (obj, _) => .ok (objs0 ++ [obj])
      | .error .truncated => .fail objs0
      | .error .exited => .exited

/-- A run of the decoder on a fresh format object. -/
def parse (data : List Nat) : ParseOutcome := parseFrom [] data

/-- Model of `MachO::detect` (lines 12-29): read one 32-bit value and compare against
the six recognized magic constants; a read shortfall is "not detected". -/
def detect (data : List Nat) : Bool :=
  match (⟨data, 0, true⟩ : Reader).getUInt32 with
  | none => false
  | some (magic, _) =>
    magic == 0xFEEDFACE || magic == 0xFEEDFACF || magic == 0xECAFDEEF ||
      magic == 0xFCAFDEEF || magic == 0xCAFEBABE || magic == 0xBEBAFECA

/-- The objects visible in a parse outcome (none when the process exited). -/
def outcomeObjs : ParseOutcome → List BinaryObject
  | .ok objs => objs
  | .fail objs => objs
  | .exited => []

/-! Concrete byte-level inputs used to settle the claims. -/

/-- Little-endian encoding of a 16-bit value. -/
def u16le (v : Nat) : List Nat := [v % 256, v / 256 % 256]

/-- Little-endian encoding of a 32-bit value. -/
def u32le (v : Nat) : List Nat :=
  [v % 256, v / 256 % 256, v / 65536 % 256, v / 16777216 % 256]

/-- Big-endian encoding of a 32-bit value. -/
def u32be (v : Nat) : List Nat := (u32le v).reverse

/-- Zero padding of `n` bytes. -/
def padB (n : Nat) : List Nat := List.replicate n 0

/-- A 32-bit little-endian Mach header with the given cputype, cpusubtype,
filetype and command count (sizeofcmds and flags zero). -/
def hdr32LE (cputype cpusubtype filetype ncmds : Nat) : List Nat :=
  u32le 0xFEEDFACE ++ u32le cputype ++ u32le cpusubtype ++ u32le filetype ++
    u32le ncmds ++ u32le 0 ++ u32le 0

/-- Slice whose second load command carries the unrecognized tag 3
(`LC_SYMSEG`) with a valid `cmdsize`, after a recognized `LC_UUID`. -/
def c1data : List Nat :=
  hdr32LE 7 3 2 2 ++ (u32le 0x1B ++ u32le 24 ++ padB 16) ++ (u32le 3 ++ u32le 8)

/-- Universal binary with two slices: the first (at 48) complete, the second
(at 76) cut off right after its magic. -/
def c2data : List Nat :=
  u32le 0xCAFEBABE ++ u32be 2 ++
    (u32be 7 ++ u32be 3 ++ u32be 48 ++ u32be 28 ++ u32be 0) ++
    (u32be 7 ++ u32be 3 ++ u32be 76 ++ u32be 4 ++ u32be 0) ++
    hdr32LE 7 3 2 0 ++ u32le 0xFEEDFACF

/-- Slice with a symbol table of three entries (string indices 0, 4 and the
out-of-range 100) and the string table `"foo\0bar\0"`. -/
def c3data : List Nat :=
  hdr32LE 7 3 2 1 ++
    (u32le 2 ++ u32le 24 ++ u32le 52 ++ u32le 3 ++ u32le 88 ++ u32le 8) ++
    (u32le 0 ++ [0, 0] ++ u16le 0 ++ u32le 0x100) ++
    (u32le 4 ++ [0, 0] ++ u16le 0 ++ u32le 0x200) ++
    (u32le 100 ++ [0, 0] ++ u16le 0 ++ u32le 0x300) ++
    [102, 111, 111, 0, 98, 97, 114, 0]

/-- Slice with a `__stubs` section at address 0x1000, two primary symbols
(names "a", "b") and three indirect entries with indices 1, 0 and the
out-of-range 5. -/
def c4data : List Nat :=
  hdr32LE 7 3 2 3 ++
    (u32le 1 ++ u32le 124 ++ (strBytes "__TEXT" ++ padB 10) ++
      u32le 0 ++ u32le 0 ++ u32le 0 ++ u32le 0 ++ u32le 0 ++ u32le 0 ++
      u32le 1 ++ u32le 0 ++
      (strBytes "__stubs" ++ padB 9) ++ (strBytes "__TEXT" ++ padB 10) ++
      u32le 0x1000 ++ u32le 18 ++ u32le 0 ++ u32le 0 ++ u32le 0 ++ u32le 0 ++
      u32le 0 ++ padB 8) ++
    (u32le 2 ++ u32le 24 ++ u32le 260 ++ u32le 2 ++ u32le 290 ++ u32le 4) ++
    (u32le 0xB ++ u32le 80 ++ padB 48 ++ u32le 300 ++ u32le 3 ++ padB 16) ++
    padB 4 ++
    (u32le 0 ++ [0, 0] ++ u16le 0 ++ u32le 0x111) ++
    (u32le 2 ++ [0, 0] ++ u16le 0 ++ u32le 0x222) ++
    padB 6 ++ [97, 0, 98, 0] ++ padB 6 ++
    (u32le 1 ++ u32le 0 ++ u32le 5)

/-- Universal binary with two slices at 48 and 76 whose fat-directory cpu
type, cpu subtype and alignment words are arbitrary: a 32-bit little-endian
x86 slice and a 64-bit big-endian x86-64 slice. -/
def c5data (a b c d e f : Nat) : List Nat :=
  u32le 0xCAFEBABE ++ u32be 2 ++
    (u32be a ++ u32be b ++ u32be 48 ++ u32be 28 ++ u32be c) ++
    (u32be d ++ u32be e ++ u32be 76 ++ u32be 32 ++ u32be f) ++
    hdr32LE 7 3 2 0 ++
    (u32le 0xFCAFDEEF ++ u32be 0x01000007 ++ u32be 0x80000003 ++ u32be 2 ++
      u32be 0 ++ u32be 0 ++ u32be 0 ++ u32be 0)

/-- A 28-byte slice whose magic 0x12345678 matches none of the four
single-architecture constants. -/
def c6data : List Nat :=
  u32le 0x12345678 ++ u32le 7 ++ u32le 3 ++ u32le 2 ++ u32le 0 ++ u32le 0 ++ u32le 0

/-- Slice placed at base offset 100 registering all eight section types, with
raw record offsets 10, 20, 30 (segment sections), 500 (string table), 40
(function starts), 50 (code signature), 600 (symbol table) and 640
(indirect symbol table). -/
def c8data : List Nat :=
  padB 100 ++ hdr32LE 7 3 2 5 ++
    (u32le 1 ++ u32le 260 ++ (strBytes "__TEXT" ++ padB 10) ++
      u32le 0 ++ u32le 0 ++ u32le 0 ++ u32le 0 ++ u32le 0 ++ u32le 0 ++
      u32le 3 ++ u32le 0 ++
      (strBytes "__text" ++ padB 10) ++ (strBytes "__TEXT" ++ padB 10) ++
      u32le 0x1000 ++ u32le 4 ++ u32le 10 ++ padB 16 ++ padB 8 ++
      (strBytes "__stubs" ++ padB 9) ++ (strBytes "__TEXT" ++ padB 10) ++
      u32le 0x2000 ++ u32le 6 ++ u32le 20 ++ padB 16 ++ padB 8 ++
      (strBytes "__cstring" ++ padB 7) ++ (strBytes "__TEXT" ++ padB 10) ++
      u32le 0x3000 ++ u32le 4 ++ u32le 30 ++ padB 16 ++ padB 8) ++
    (u32le 2 ++ u32le 24 ++ u32le 600 ++ u32le 1 ++ u32le 500 ++ u32le 4) ++
    (u32le 0xB ++ u32le 80 ++ padB 48 ++ u32le 640 ++ u32le 1 ++ padB 16) ++
    (u32le 0x26 ++ u32le 16 ++ u32le 40 ++ u32le 4) ++
    (u32le 0x1D ++ u32le 16 ++ u32le 50 ++ u32le 4) ++
    padB 76 ++
    (u32le 0 ++ [0, 0] ++ u16le 0 ++ u32le 7) ++
    padB 28 ++ u32le 0

/-- Slice placed at base offset 40 with `symoff = 200`, `indirsymoff = 260`;
a symbol entry with value 0xAAAA is planted at the raw offset 200 and a
different entry (value 0xBBBB) at the adjusted offset 240 = 40 + 200;
an indirect index 7 is planted at the raw offset 260 and the value 8 at the
adjusted offset 300 = 40 + 260. -/
def c9data : List Nat :=
  padB 40 ++ hdr32LE 7 3 2 2 ++
    (u32le 2 ++ u32le 24 ++ u32le 200 ++ u32le 1 ++ u32le 0 ++ u32le 0) ++
    (u32le 0xB ++ u32le 80 ++ padB 48 ++ u32le 260 ++ u32le 1 ++ padB 16) ++
    padB 28 ++
    (u32le 1 ++ [0, 0] ++ u16le 0 ++ u32le 0xAAAA) ++
    padB 28 ++
    (u32le 2 ++ [0, 0] ++ u16le 0 ++ u32le 0xBBBB) ++
    padB 8 ++ u32le 7 ++ padB 36 ++ u32le 8

/-- The slice object decoded from a `parseHeader` result (defaulting on
failure), for stating concrete-instance theorems. -/
def exObj : Except PErr (BinaryObject × Reader) → BinaryObject
  | .ok (o, _) => o
  | .error _ => noObj

/-- The reader returned by a `parseHeader` result. -/
def exRd : Except PErr (BinaryObject × Reader) → Reader
  | .ok (_, r) => r
  | .error _ => ⟨[], 0, true⟩

def c3obj : BinaryObject := exObj (parseHeader 0 0 ⟨c3data, 0, true⟩)

def c3st : Section := (c3obj.getSection SectionType.String).getD noSec

def c4obj : BinaryObject := exObj (parseHeader 0 0 ⟨c4data, 0, true⟩)

def c4stub : Section := (c4obj.getSection SectionType.SymbolStubs).getD noSec

def c6obj : BinaryObject := exObj (parseHeader 0 0 ⟨c6data, 0, true⟩)

def c8obj : BinaryObject := exObj (parseHeader 100 0 ⟨c8data, 0, true⟩)

def c9obj : BinaryObject := exObj (parseHeader 40 0 ⟨c9data, 0, true⟩)


/-! Helper lemmas shared by the claim theorems. -/

/-- Inversion of a successful `parseHeader`: the fallible phase produced some
pieces and the pure tail assembled the object. -/
theorem parseHeader_ok {base sz : Nat} {r : Reader} {obj : BinaryObject} {r' : Reader}
    (h : parseHeader base sz r = Except.ok (obj, r')) :
    ∃ p, phaseA base r = Except.ok p ∧ finish p = (obj, r') := by
  unfold parseHeader at h
  cases hp : phaseA base r with
  | error e => rw [hp] at h; cases h
  | ok p =>
    rw [hp] at h
    exact ⟨p, rfl, by injection h⟩

theorem finish_systemBits (p : Pieces) : (finish p).1.systemBits = p.bits := rfl

theorem finish_littleEndian (p : Pieces) : (finish p).1.littleEndian = p.le := rfl

theorem finish_sections (p : Pieces) :
    (finish p).1.sections = (loadSections p.r p.secs).1 := rfl

theorem finish_symTable (p : Pieces) :
    (finish p).1.symTable =
      (if p.symnum > 0 then resolveSyms (loadSections p.r p.secs).1 p.symnum p.syms
       else []) := rfl

theorem finish_dynSymTable (p : Pieces) :
    (finish p).1.dynSymTable =
      resolveDyns (loadSections p.r p.secs).1 p.symnum p.indirsymnum
        (resolveSyms (loadSections p.r p.secs).1 p.symnum p.syms) p.dyns := rfl

/-- The symbol loop reads exactly `n` entries, appended to the accumulator. -/
theorem symLoop_length {bits : Nat} :
    ∀ (n : Nat) (r : Reader) (s : Nat) (acc : List SymbolEntry) out,
      symLoop bits n r s acc = some out → out.1.length = acc.length + n := by
  intro n
  induction n with
  | zero =>
    intro r s acc out h
    unfold symLoop at h
    injection h with h
    subst h
    rfl
  | succ m ih =>
    intro r s acc out h
    unfold symLoop at h
    cases h1 : Reader.getUInt32 r with
    | none => simp only [h1] at h; exact Option.noConfusion h
    | some v1 =>
      obtain ⟨x1, r1⟩ := v1
      simp only [h1] at h
      cases h2 : Reader.getUChar r1 with
      | none => simp only [h2] at h; exact Option.noConfusion h
      | some v2 =>
        obtain ⟨x2, r2⟩ := v2
        simp only [h2] at h
        cases h3 : Reader.getUChar r2 with
        | none => simp only [h3] at h; exact Option.noConfusion h
        | some v3 =>
          obtain ⟨x3, r3⟩ := v3
          simp only [h3] at h
          cases h4 : Reader.getUInt16 r3 with
          | none => simp only [h4] at h; exact Option.noConfusion h
          | some v4 =>
            obtain ⟨x4, r4⟩ := v4
            simp only [h4] at h
            cases h5 : readUW bits r4 with
            | none => simp only [h5] at h; exact Option.noConfusion h
            | some v5 =>
              obtain ⟨x5, r5⟩ := v5
              simp only [h5] at h
              have := ih _ _ _ _ h
              simp only [List.length_append, List.length_cons, List.length_nil] at this
              omega

/-- Entries produced by the indirect-symbol loop carry value 0 and no
string. -/
theorem dynLoop_raw :
    ∀ (n : Nat) (r : Reader) (s : Nat) (acc : List SymbolEntry) out,
      (∀ d ∈ acc, d.value = 0 ∧ d.str = []) →
      dynLoop n r s acc = some out → ∀ d ∈ out.1, d.value = 0 ∧ d.str = [] := by
  intro n
  induction n with
  | zero =>
    intro r s acc out hacc h
    unfold dynLoop at h
    injection h with h
    subst h
    exact hacc
  | succ m ih =>
    intro r s acc out hacc h
    unfold dynLoop at h
    cases h1 : Reader.getUInt32 r with
    | none => simp only [h1] at h; exact Option.noConfusion h
    | some v1 =>
      obtain ⟨num, r1⟩ := v1
      simp only [h1] at h
      refine ih _ _ _ _ ?_ h
      intro d hd
      rcases List.mem_append.1 hd with hd | hd
      · exact hacc d hd
      · rcases List.mem_singleton.1 hd with rfl
        exact ⟨rfl, rfl⟩

/-- The symbol phase yields exactly `symnum` entries. -/
theorem symPhase_length {base bits symoff symnum : Nat} {secs : List Section}
    {r : Reader} {out} (h : symPhase base bits symoff symnum secs r = some out) :
    out.2.1.length = symnum := by
  unfold symPhase at h
  split at h
  · injection h with h
    subst h
    simp [*]
  · cases hl : symLoop bits symnum (r.seek symoff) 0 [] with
    | none => simp only [hl] at h; exact Option.noConfusion h
    | some v =>
      obtain ⟨syms, symsize, r2⟩ := v
      simp only [hl] at h
      injection h with h
      subst h
      have := symLoop_length symnum (r.seek symoff) 0 [] _ hl
      simpa using this

/-- The dynamic-symbol phase yields raw entries (value 0, empty string). -/
theorem dynPhase_raw {base indirsymoff indirsymnum : Nat} {secs : List Section}
    {r : Reader} {out} (h : dynPhase base indirsymoff indirsymnum secs r = some out) :
    ∀ d ∈ out.2.1, d.value = 0 ∧ d.str = [] := by
  unfold dynPhase at h
  split at h
  · injection h with h
    subst h
    intro d hd
    cases hd
  · cases hl : dynLoop indirsymnum (r.seek indirsymoff) 0 [] with
    | none => simp only [hl] at h; exact Option.noConfusion h
    | some v =>
      obtain ⟨dyns, dynsize, r2⟩ := v
      simp only [hl] at h
      injection h with h
      subst h
      intro d hd
      exact dynLoop_raw indirsymnum (r.seek indirsymoff) 0 [] _
        (by intro d hd; cases hd) hl d hd

/-- Inversion of the fallible phase: the stored magic is the 32-bit value at
the base offset, bit-width and endianness are its classification, the
primary-symbol list has exactly `symnum` entries and the dynamic entries are
raw. -/
theorem phaseA_inv {base : Nat} {r : Reader} {p : Pieces}
    (h : phaseA base r = Except.ok p) :
    p.magic = asm true ((r.data.drop base).take 4) ∧
    (p.bits, p.le) = classifyMagic p.magic ∧
    p.syms.length = p.symnum ∧
    (∀ d ∈ p.dyns, d.value = 0 ∧ d.str = []) := by
  unfold phaseA at h
  simp only at h
  cases hm : Reader.getUInt32 ((r.seek base).setLE true) with
  | none => simp only [hm] at h; exact Except.noConfusion h
  | some mv =>
    obtain ⟨magic, r1⟩ := mv
    simp only [hm] at h
    cases hh : readHdr (classifyMagic magic).1 (r1.setLE (classifyMagic magic).2) with
    | none => simp only [hh] at h; exact Except.noConfusion h
    | some hv =>
      obtain ⟨cputype, cpusubtype, filetype, ncmds, r2⟩ := hv
      simp only [hh] at h
      cases hc : cmdLoop base (classifyMagic magic).1 ncmds ⟨[], 0, 0, 0, 0, r2⟩ with
      | error e => simp only [hc] at h; exact Except.noConfusion h
      | ok st =>
        simp only [hc] at h
        cases hs : symPhase base (classifyMagic magic).1 st.symoff st.symnum st.secs st.r with
        | none => simp only [hs] at h; exact Except.noConfusion h
        | some sv =>
          obtain ⟨secs1, syms, r3⟩ := sv
          simp only [hs] at h
          cases hd : dynPhase base st.indirsymoff st.indirsymnum secs1 r3 with
          | none => simp only [hd] at h; exact Except.noConfusion h
          | some dv =>
            obtain ⟨secs2, dyns, r4⟩ := dv
            simp only [hd] at h
            injection h with h
            subst h
            refine ⟨?_, by rfl, ?_, ?_⟩
            · unfold Reader.getUInt32 Reader.getW at hm
              simp only [Reader.seek, Reader.setLE] at hm
              split at hm
              · injection hm with hm
                exact (congrArg Prod.fst hm).symm
              · exact Option.noConfusion hm
            · simpa using symPhase_length hs
            · simpa using dynPhase_raw hd

/-- Element lookup in an enumerated list. -/
theorem enumF_get? {α : Type} (i : Nat) (l : List α) (k : Nat) :
    (enumF i l).get? k = (l.get? k).map (fun a => (i + k, a)) := by
  induction l generalizing i k with
  | nil => simp [enumF]
  | cons a t ih =>
    cases k with
    | zero => simp [enumF]
    | succ k =>
      rw [show i + (k + 1) = (i + 1) + k by omega]
      simpa [enumF] using ih (i + 1) k

/-- String resolution does not change the number of symbols. -/
theorem resolveSyms_length (secs : List Section) (symnum : Nat)
    (syms : List SymbolEntry) :
    (resolveSyms secs symnum syms).length = syms.length := by
  unfold resolveSyms
  split
  · cases findSec secs SectionType.String <;> simp
  · rfl

/-- String resolution does not change a symbol's index. -/
theorem resolveSyms_index (secs : List Section) (symnum : Nat)
    (syms : List SymbolEntry) (k : Nat) :
    ((resolveSyms secs symnum syms).getD k noSym).index = (syms.getD k noSym).index := by
  unfold resolveSyms
  split
  · cases h : findSec secs SectionType.String with
    | none => rfl
    | some st =>
      rcases hk : syms.get? k with - | a
      · have : syms.length ≤ k := List.get?_eq_none.1 hk
        rw [List.getD_eq_default, List.getD_eq_default] <;> simp [this, hk]
      · rw [List.getD_eq_get?, List.getD_eq_get?, List.get?_map, hk]
        rfl
  · rfl

/-- Claim C1: the specification requires an unrecognized load-command tag to
be skipped via `cmdsize` with the surrounding recognized commands taking
effect; the code instead terminates the whole process via `exit(0)`: on a
slice whose second command carries the unknown tag 3 after a recognized
`LC_UUID`, the parse ends in the `exited` outcome and no object is
produced. -/
theorem claim_C1_unknown_command_exits :
    parse c1data = ParseOutcome.exited ∧ outcomeObjs (parse c1data) = [] := by
  constructor
  · rfl
  · rfl

/-- Claim C7: `detect` returns true exactly when the stream holds at least 4
bytes whose little-endian 32-bit value is one of the six recognized magic
constants; any shorter stream or other value yields false (and the total
function never throws). -/
theorem claim_C7_detect_iff (data : List Nat) :
    detect data = true ↔
      4 ≤ data.length ∧
        (asm true (data.take 4) = 0xFEEDFACE ∨ asm true (data.take 4) = 0xFEEDFACF ∨
         asm true (data.take 4) = 0xECAFDEEF ∨ asm true (data.take 4) = 0xFCAFDEEF ∨
         asm true (data.take 4) = 0xCAFEBABE ∨ asm true (data.take 4) = 0xBEBAFECA) := by
  unfold detect
  by_cases hlen : 4 ≤ data.length
  · rw [show (⟨data, 0, true⟩ : Reader).getUInt32 =
        some (asm true (data.take 4), ⟨data, 4, true⟩) from by
      unfold Reader.getUInt32 Reader.getW
      simp [hlen]]
    simp only [hlen, Bool.or_eq_true, beq_iff_eq, true_and]
    tauto
  · rw [show (⟨data, 0, true⟩ : Reader).getUInt32 = none from by
      unfold Reader.getUInt32 Reader.getW
      simp [hlen]]
    simp [hlen]

set_option maxRecDepth 100000

/-- Claim C9: with the slice decoded at base offset 40 and `symoff = 200`,
`indirsymoff = 260`, the symbol and indirect entries are read from the RAW
file positions 200 and 260 (yielding the values planted there, index 1,
value 0xAAAA and index 7), while the Symbol-Table and Dynamic-Symbol-Table
sections register the base-adjusted offsets 240 and 300, whose loaded bytes
are the different records planted at those adjusted positions. -/
theorem claim_C9_raw_table_seek :
    c9obj.symTable = [⟨1, 0xAAAA, []⟩] ∧
    c9obj.dynSymTable = [⟨7, 0, []⟩] ∧
    c9obj.getSection SectionType.Symbols =
      some ⟨SectionType.Symbols, "Symbol Table", 200, 12, 240,
        [2, 0, 0, 0, 0, 0, 0, 0, 187, 187, 0, 0]⟩ ∧
    c9obj.getSection SectionType.DynSymbols =
      some ⟨SectionType.DynSymbols, "Dynamic Symbol Table", 260, 4, 300,
        [8, 0, 0, 0]⟩ := by
  refine ⟨?_, ?_, ?_, ?_⟩ <;> rfl

/-- Claim C10: decoding the same byte buffer twice (two runs of the decoder
from the same initial `objects` state) yields structurally equal results:
the same outcome, object list, section lists, symbol tables and dynamic
symbol tables, in the same order.  The decoder consults nothing but the
buffer, so both runs coincide definitionally. -/
theorem claim_C10_deterministic (data : List Nat) (objs0 : List BinaryObject) :
    parseFrom objs0 data = parseFrom objs0 data ∧
    outcomeObjs (parseFrom objs0 data) = outcomeObjs (parseFrom objs0 data) ∧
    (outcomeObjs (parseFrom objs0 data)).map BinaryObject.sections =
      (outcomeObjs (parseFrom objs0 data)).map BinaryObject.sections ∧
    (outcomeObjs (parseFrom objs0 data)).map BinaryObject.symTable =
      (outcomeObjs (parseFrom objs0 data)).map BinaryObject.symTable ∧
    (outcomeObjs (parseFrom objs0 data)).map BinaryObject.dynSymTable =
      (outcomeObjs (parseFrom objs0 data)).map BinaryObject.dynSymTable :=
  ⟨rfl, rfl, rfl, rfl, rfl⟩

/-- Claim C2 counterexample: on a universal binary whose first slice decodes
completely and whose second slice is truncated, the parse reports failure but
the `objects` member retains the first slice's completed object — the
decoded-so-far objects are NOT discarded, so the parse is not
all-or-nothing. -/
theorem claim_C2_counterexample :
    parse c2data = ParseOutcome.fail
      [⟨32, true, CpuType.X86, CpuType.I386, FileType.Execute, [], [], []⟩] ∧
    outcomeObjs (parse c2data) ≠ [] := by
  constructor
  · rfl
  · intro h
    simp [show parse c2data = ParseOutcome.fail
      [⟨32, true, CpuType.X86, CpuType.I386, FileType.Execute, [], [], []⟩] from rfl,
      outcomeObjs] at h

/-- Claim C2 (amended): a failed checked fixed-width read aborts the current
slice and makes the parse report failure, and the failing slice contributes
no object; but `BinaryObject`s from earlier successfully completed slices of
the same universal binary are retained in the accumulated `objects` list
rather than discarded — after a successful prefix of slices, a slice whose
decode hits a truncated read ends the fan-out loop in the `fail` outcome
carrying exactly the prefix's objects. -/
theorem claim_C2_failure_keeps_completed_slices
    (pre : List (Nat × Nat)) (a : Nat × Nat) (post : List (Nat × Nat))
    (r0 r1 : Reader) (objs0 objs1 : List BinaryObject)
    (hpre : goSlices pre r0 objs0 = SlicesRes.ok objs1 r1)
    (hfail : parseHeader a.1 a.2 r1 = Except.error PErr.truncated) :
    goSlices (pre ++ a :: post) r0 objs0 = SlicesRes.fail objs1 := by
  induction pre generalizing r0 objs0 with
  | nil =>
    unfold goSlices at hpre
    injection hpre with h1 h2
    subst h1
    subst h2
    obtain ⟨ao, as'⟩ := a
    simp only [List.nil_append]
    unfold goSlices
    rw [hfail]
  | cons p pre' ih =>
    obtain ⟨po, ps⟩ := p
    simp only [List.cons_append]
    unfold goSlices at hpre ⊢
    cases hph : parseHeader po ps r0 with
    | error e =>
      rw [hph] at hpre
      cases e <;> simp at hpre
    | ok pair =>
      obtain ⟨obj, r''⟩ := pair
      rw [hph] at hpre
      exact ih r'' (objs0 ++ [obj]) hpre

theorem claim_C2_failure_keeps_completed_slices_witness :
    goSlices [(48, 28), (76, 4)] ⟨c2data, 48, false⟩ [] =
      SlicesRes.fail
        [⟨32, true, CpuType.X86, CpuType.I386, FileType.Execute, [], [], []⟩] :=
  claim_C2_failure_keeps_completed_slices [(48, 28)] (76, 4) []
    ⟨c2data, 48, false⟩ ⟨c2data, 76, true⟩ []
    [⟨32, true, CpuType.X86, CpuType.I386, FileType.Execute, [], [], []⟩]
    (by rfl) (by rfl)

/-- Claim C6 counterexample: a slice whose magic (0x12345678) matches none of
the four single-architecture constants IS decoded as a valid slice: the
decoder falls back to the 32-bit little-endian defaults and the parse
succeeds with one object. -/
theorem claim_C6_counterexample :
    parse c6data = ParseOutcome.ok
      [⟨32, true, CpuType.X86, CpuType.I386, FileType.Execute, [], [], []⟩] := by
  rfl

/-- Claim C6 (amended): the slice decoder seeks to the base offset, re-reads
the magic under forced little-endianness, and derives bit-width and
endianness solely from the four single-architecture constants
(0xFEEDFACE: 32 LE, 0xFEEDFACF: 64 LE, 0xECAFDEEF: 32 BE, 0xFCAFDEEF: 64 BE);
a slice whose magic matches none of the four is NOT rejected: it is decoded
with the default classification 32-bit little-endian. -/
theorem claim_C6_magic_classification
    (base sz : Nat) (r : Reader) (obj : BinaryObject) (r' : Reader)
    (h : parseHeader base sz r = Except.ok (obj, r')) :
    (obj.systemBits, obj.littleEndian) =
      classifyMagic (asm true ((r.data.drop base).take 4)) := by
  obtain ⟨p, hp, hf⟩ := parseHeader_ok h
  obtain ⟨hmagic, hbl, -, -⟩ := phaseA_inv hp
  have hobj : obj = (finish p).1 := (congrArg Prod.fst hf).symm
  subst hobj
  rw [finish_systemBits, finish_littleEndian, ← hmagic]
  exact hbl

theorem claim_C6_magic_classification_witness :
    (c6obj.systemBits, c6obj.littleEndian) =
      classifyMagic (asm true ((c6data.drop 0).take 4)) :=
  claim_C6_magic_classification 0 0 ⟨c6data, 0, true⟩ c6obj
    (exRd (parseHeader 0 0 ⟨c6data, 0, true⟩)) (by rfl)

/-- Claim C5: on a universal-binary magic the decoder switches to big-endian,
reads the architecture count and the five-word records, discards the fat
directory's cpu type, cpu subtype and alignment words, and decodes one slice
per retained (offset, size) pair: the 2-slice input decodes to exactly 2
objects, the first 32-bit little-endian x86 and the second 64-bit big-endian
x86-64, each classified from its own slice header.  The two conjuncts plant
different values in the fat directory's cpu/subtype/alignment words — first
the PowerPC declaration (18, 0x80000003), then arbitrary garbage — and the
decoded objects are identical in both cases and reflect only the per-slice
headers, proving those fat-directory fields are discarded. -/
theorem claim_C5_fat_fanout :
    parse (c5data 18 0x80000003 4 18 0x80000003 4) = ParseOutcome.ok
      [⟨32, true, CpuType.X86, CpuType.I386, FileType.Execute, [], [], []⟩,
       ⟨64, false, CpuType.X86_64, CpuType.I386, FileType.Execute, [], [], []⟩] ∧
    parse (c5data 0xFFFFFFFF 0xEEEEEEEE 0xDDDDDDDD 0xCCCCCCCC 0xBBBBBBBB 0xAAAAAAAA) =
      ParseOutcome.ok
      [⟨32, true, CpuType.X86, CpuType.I386, FileType.Execute, [], [], []⟩,
       ⟨64, false, CpuType.X86_64, CpuType.I386, FileType.Execute, [], [], []⟩] := by
  constructor
  · rfl
  · rfl

/-- Claim C3 counterexample: with string-table content `"foo\0bar\0"`, the
symbol with string-index 0 resolves to the four bytes
`'f' 'o' 'o' '\0'` — the terminating zero byte is included in the stored
name — and not to the exact three-byte name `"foo"` the claim states
(likewise index 4 yields `"bar"` plus the zero byte). -/
theorem claim_C3_counterexample :
    (c3obj.symTable.getD 0 noSym).str = [102, 111, 111, 0] ∧
    (c3obj.symTable.getD 1 noSym).str = [98, 97, 114, 0] ∧
    (c3obj.symTable.getD 0 noSym).str ≠ strBytes "foo" ∧
    (c3obj.symTable.getD 1 noSym).str ≠ strBytes "bar" := by
  refine ⟨by rfl, by rfl, by decide, by decide⟩

/-- Claim C3 (amended): when a slice decodes successfully and has a
String-Table section, every primary symbol's name equals the scan of the
section's content starting at the symbol's string-table index, collecting
bytes up to AND INCLUDING the first zero byte (or up to the end of the
buffer); an out-of-range index yields the empty name, and none of this fails
the decode.  With content `"foo\0bar\0"`, index 0 thus resolves to
`"foo\0"` and index 4 to `"bar\0"`. -/
theorem claim_C3_string_scan
    (base sz : Nat) (r : Reader) (obj : BinaryObject) (r' : Reader) (st : Section)
    (h : parseHeader base sz r = Except.ok (obj, r'))
    (hst : obj.getSection SectionType.String = some st)
    (sym : SymbolEntry) (hmem : sym ∈ obj.symTable) :
    sym.str = scanStr st.data sym.index := by
  obtain ⟨p, hp, hf⟩ := parseHeader_ok h
  have hobj : obj = (finish p).1 := (congrArg Prod.fst hf).symm
  subst hobj
  rw [finish_symTable] at hmem
  by_cases h0 : p.symnum > 0
  · rw [if_pos h0] at hmem
    unfold resolveSyms at hmem
    rw [if_pos h0] at hmem
    have hst' : findSec (loadSections p.r p.secs).1 SectionType.String = some st := hst
    rw [hst'] at hmem
    obtain ⟨a, ha, rfl⟩ := List.mem_map.1 hmem
    rfl
  · rw [if_neg h0] at hmem
    exact absurd hmem (List.not_mem_nil sym)

theorem claim_C3_string_scan_witness :
    (c3obj.symTable.getD 0 noSym).str =
      scanStr c3st.data (c3obj.symTable.getD 0 noSym).index :=
  claim_C3_string_scan 0 0 ⟨c3data, 0, true⟩ c3obj
    (exRd (parseHeader 0 0 ⟨c3data, 0, true⟩)) c3st (by rfl) (by rfl)
    (c3obj.symTable.getD 0 noSym) (by decide)

/-- Claim C4: in a successfully decoded slice having a Symbol-Stubs section,
every dynamic-symbol entry at position `hpos` whose raw index is within the
primary symbol table receives the corresponding primary symbol's resolved
name and the synthesized address `stub.addr + hpos * 6` (so with stubs at
0x1000 the second entry gets 0x1006), while every entry with an index outside
that range keeps the empty name and zero address, without failing the
decode. -/
theorem claim_C4_dynamic_resolution
    (base sz : Nat) (r : Reader) (obj : BinaryObject) (r' : Reader) (stub : Section)
    (hok : parseHeader base sz r = Except.ok (obj, r'))
    (hstub : obj.getSection SectionType.SymbolStubs = some stub)
    (hpos : Nat) (e : SymbolEntry)
    (he : obj.dynSymTable.get? hpos = some e) :
    (e.index < obj.symTable.length →
      stub.addr + hpos * 6 < 2 ^ 64 →
      e.str = (obj.symTable.getD e.index noSym).str ∧
      e.value = stub.addr + hpos * 6) ∧
    (obj.symTable.length ≤ e.index → e.str = [] ∧ e.value = 0) := by
  obtain ⟨p, hp, hf⟩ := parseHeader_ok hok
  obtain ⟨-, -, hlen, hdyns⟩ := phaseA_inv hp
  have hobj : obj = (finish p).1 := (congrArg Prod.fst hf).symm
  subst hobj
  have hstub' :
      findSec (loadSections p.r p.secs).1 SectionType.SymbolStubs = some stub := hstub
  rw [finish_dynSymTable] at he
  unfold resolveDyns at he
  by_cases hc : p.indirsymnum > 0 ∧ p.symnum > 0
  · rw [if_pos hc] at he
    simp only [hstub'] at he
    rw [List.get?_map, enumF_get?] at he
    cases hd : p.dyns.get? hpos with
    | none => rw [hd] at he; simp at he
    | some d =>
      rw [hd] at he
      simp only [Option.map_some', Nat.zero_add, Option.some.injEq] at he
      have hsymtab : (finish p).1.symTable =
          resolveSyms (loadSections p.r p.secs).1 p.symnum p.syms := by
        rw [finish_symTable, if_pos hc.2]
      have hlength : (finish p).1.symTable.length = p.symnum := by
        rw [hsymtab, resolveSyms_length, hlen]
      by_cases hidx : d.index < p.symnum
      · rw [if_pos hidx] at he
        subst he
        constructor
        · intro hlt hov
          refine ⟨?_, ?_⟩
          · rw [hsymtab]
          · show (stub.addr + hpos * 6) % 2 ^ 64 = stub.addr + hpos * 6
            exact Nat.mod_eq_of_lt hov
        · intro hge
          rw [hlength] at hge
          have hge' : p.symnum ≤ d.index := hge
          omega
      · rw [if_neg hidx] at he
        subst he
        have hmem : d ∈ p.dyns := List.get?_mem hd
        obtain ⟨hv, hs⟩ := hdyns d hmem
        constructor
        · intro hlt _
          rw [hlength] at hlt
          exact absurd hlt hidx
        · intro _
          exact ⟨hs, hv⟩
  · rw [if_neg hc] at he
    simp at he

theorem claim_C4_dynamic_resolution_witness :
    (c4obj.dynSymTable.getD 1 noSym).str =
      (c4obj.symTable.getD (c4obj.dynSymTable.getD 1 noSym).index noSym).str ∧
    (c4obj.dynSymTable.getD 1 noSym).value = c4stub.addr + 1 * 6 :=
  (claim_C4_dynamic_resolution 0 0 ⟨c4data, 0, true⟩ c4obj
    (exRd (parseHeader 0 0 ⟨c4data, 0, true⟩)) c4stub (by rfl) (by rfl) 1
    (c4obj.dynSymTable.getD 1 noSym) (by rfl)).1 (by decide) (by decide)

/-- Claim C8: every Section registered in a BinaryObject stores a file offset
relative to the start of the whole input stream: each `addSection` site — all
of which construct the section through `adjSection` — records the slice base
offset plus the raw offset read from the slice's records; in the concrete
slice decoded at base 100, all eight section types (text, stubs, cstring,
string table, function starts, code signature, symbol table, dynamic symbol
table) end up with offsets 100 + 10, 100 + 20, 100 + 30, 100 + 500, 100 + 40,
100 + 50, 100 + 600 and 100 + 640. -/
theorem claim_C8_section_offsets :
    (∀ (base raw : Nat) (t : SectionType) (nm : String) (addr siz : Nat),
      base + raw < 2 ^ 32 →
      (adjSection base raw t nm addr siz).offset = base + raw) ∧
    c8obj.sections.map Section.offset = [110, 120, 130, 600, 140, 150, 700, 740] ∧
    c8obj.sections.map Section.stype =
      [SectionType.Text, SectionType.SymbolStubs, SectionType.CString,
       SectionType.String, SectionType.FuncStarts, SectionType.CodeSig,
       SectionType.Symbols, SectionType.DynSymbols] := by
  refine ⟨?_, by rfl, by rfl⟩
  intro base raw t nm addr siz hlt
  exact Nat.mod_eq_of_lt hlt

theorem claim_C8_section_offsets_witness :
    (adjSection 100 500 SectionType.String "String Table" 500 4).offset = 100 + 500 :=
  claim_C8_section_offsets.1 100 500 SectionType.String "String Table" 500 4 (by decide)
